import Mathlib

/-!
Shallow embedding of the context-engine core of this repository
(`src/core/context-engine/**` and the unnamed parts holding `PromptPacker`,
`SemanticRetriever`, `LexicalRetriever` and `CandidateFusion`), together with
theorems settling the frozen claims about it.

Modelling conventions:
* JavaScript numbers used for scores, weights and percentages are modelled by
  `ℚ` (the code performs only field operations and comparisons on them);
  token counts are `ℕ`; token budgets are `ℤ` (they are differences).
* `Map` objects are modelled by insertion-ordered association lists with the
  exact `Map.get`/`Map.set` semantics (set on an existing key updates in
  place, otherwise appends).
* `Math.exp` (used only by `Ranker.calculateRecencyScore` on a present
  timestamp) and `Date.now()` are modelled as parameters `rexp : ℚ → ℚ` and
  `now : ℚ` of the ranker; every claim settled here is independent of them.
* The `TokenCounter` cache memoizes `countTokensInternal` without changing
  its value, so the counter is modelled by the pure counting function.
-/

set_option allowUnsafeReducibility true
attribute [local semireducible] Rat.add Rat.mul Rat.inv Rat.sub Rat.div

set_option maxRecDepth 100000

namespace CtxEngine

/-- Insertion-ordered association-list lookup (first match), modelling
`Map.get` (`undefined` ↦ `none`). -/
def alookup {α : Type} (m : List (String × α)) (k : String) : Option α :=
  match m with
  | [] => none
  | (k', v) :: rest => if k' = k then some v else alookup rest k

/-- `Map.set`: update in place if the key is present, else append. -/
def mapSet {α : Type} (m : List (String × α)) (k : String) (v : α) :
    List (String × α) :=
  match m with
  | [] => [(k, v)]
  | (k', v') :: rest =>
    if k' = k then (k', v) :: rest else (k', v') :: mapSet rest k v

/-! ## TokenCounter (`src/core/context-engine/budget/TokenCounter.ts`)

`countTokensInternal` splits on whitespace runs, counts the punctuation
characters `.,;:!?(){}[]<>` and the maximal digit runs, and returns
`ceil(words + punctuation + 1.5 * numbers)`. -/

/-- JavaScript `\s` restricted to the characters that occur in this
development (space, tab, newline, carriage return). -/
def isJsSpace (c : Char) : Bool :=
  c = ' ' || c = '\t' || c = '\n' || c = '\x0d'

/-- The punctuation class `[.,;:!?(){}[\]<>]` of `countTokensInternal`
(char codes 123 and 125 are the curly braces). -/
def isJsPunct (c : Char) : Bool :=
  c ∈ ".,;:!?()".data || c ∈ "<>".data || c.toNat = 91 || c.toNat = 93 ||
    c.toNat = 123 || c.toNat = 125

/-- JavaScript `\d`. -/
def isJsDigit (c : Char) : Bool := c.isDigit

/-- Number of maximal runs of characters satisfying `p`; the flag records
whether the previous character was inside a run. -/
def countRuns (p : Char → Bool) : List Char → Bool → Nat
  | [], _ => 0
  | c :: cs, inRun =>
    if p c then
      (if inRun then 0 else 1) + countRuns p cs true
    else
      countRuns p cs false

namespace TokenCounter

/-- `text.split(/\s+/).filter(w => w.length > 0).length`. -/
def wordCount (s : String) : Nat :=
  countRuns (fun c => !(isJsSpace c)) s.data false

/-- `(text.match(/[.,;:!?(){}[\]<>]/g) || []).length`. -/
def punctCount (s : String) : Nat :=
  (s.data.filter isJsPunct).length

/-- `(text.match(/\d+/g) || []).length`. -/
def numberCount (s : String) : Nat :=
  countRuns isJsDigit s.data false

/-- `TokenCounter.countTokens` (equal to `countTokensInternal`; the cache is
transparent): `Math.ceil(words + punctuation + numbers * 1.5)`, i.e.
`words + punctuation + ⌈3·numbers/2⌉`. -/
def countTokens (s : String) : Nat :=
  wordCount s + punctCount s + (3 * numberCount s + 1) / 2

end TokenCounter

/-! ## Data model (`src/core/context-engine/retrieval/types.ts`) -/

/-- `lineRange : {start, end}` (`end` is a Lean keyword, rendered `end_`). -/
structure LineRange where
  start : ℤ
  end_ : ℤ
deriving DecidableEq, Repr

/-- The closed set of `metadata` keys occurring in the source, as optional
typed fields (`lastModified` is the epoch-millisecond value of the `Date`). -/
structure CandidateMetadata where
  language : Option String := none
  symbolName : Option String := none
  symbolType : Option String := none
  lastModified : Option ℚ := none
  rawScore : Option ℚ := none
  matchedTerms : Option (List String) := none
  originalScore : Option ℚ := none
  rrfScore : Option ℚ := none
  diversityPenalty : Option ℚ := none
  wasTruncated : Bool := false
  originalLength : Option ℕ := none
deriving DecidableEq, Repr

/-- `RetrievalCandidate`. -/
structure RetrievalCandidate where
  filePath : String
  content : String
  score : ℚ
  method : String
  lineRange : Option LineRange := none
  metadata : CandidateMetadata := {}
deriving DecidableEq, Repr

/-- `RetrievalQuery`. -/
structure RetrievalQuery where
  text : String
  limit : Option ℕ := none
  minScore : Option ℚ := none
  filePatterns : Option (List String) := none
  languages : Option (List String) := none
deriving DecidableEq, Repr

/-- `ContextItem` (the fields used by the packer). -/
structure ContextItem where
  name : String
  description : String
  content : String
deriving DecidableEq, Repr

/-- `IntentType` (values fixed by the spec's §3 intent enumeration and the
source's `switch` statements). -/
inductive IntentType where
  | explain
  | bug_fix
  | refactor
  | generate
  | test
deriving DecidableEq, Repr

/-! ## PromptPacker (`src/unnamed/part_002`) -/

/-- Three-digit zero-padded decimal rendering of `n < 1000`. -/
def pad3 (n : Nat) : String :=
  if n < 10 then "00" ++ Nat.repr n
  else if n < 100 then "0" ++ Nat.repr n
  else Nat.repr n

/-- JavaScript `x.toFixed(3)` for the non-negative scores occurring here
(round to nearest thousandth, three decimals always printed). -/
def jsToFixed3 (q : ℚ) : String :=
  let m : ℕ := (⌊q * 1000 + 1 / 2⌋).toNat
  Nat.repr (m / 1000) ++ "." ++ pad3 (m % 1000)

/-- JavaScript `s.substring(0, n)` for `n` possibly negative or past the
end (clamped). -/
def jsSubstringTo (s : String) (n : ℤ) : String :=
  ⟨s.data.take n.toNat⟩

/-- The comparator `(a, b) => b.score - a.score` fed to the stable
`Array.prototype.sort`: `a` may stay before `b` iff `b.score ≤ a.score`. -/
def scoreDescLe (a b : RetrievalCandidate) : Bool :=
  decide (b.score ≤ a.score)

/-- Stable insertion used to model `Array.prototype.sort`: `x` (earlier in
the input) is placed before the first `y` it may precede, so equal scores
keep their input order. -/
def insertScoreDesc (x : RetrievalCandidate) :
    List RetrievalCandidate → List RetrievalCandidate
  | [] => [x]
  | y :: ys => if scoreDescLe x y then x :: y :: ys else y :: insertScoreDesc x ys

/-- `[...candidates].sort((a, b) => b.score - a.score)`: the ECMAScript sort
is stable and the comparator is a total preorder on the score, so its result
is the unique stable descending sort, here computed by stable insertion. -/
def sortByScoreDesc : List RetrievalCandidate → List RetrievalCandidate
  | [] => []
  | x :: xs => insertScoreDesc x (sortByScoreDesc xs)

/-- `PromptPackerConfig` with the constructor's defaults. -/
structure PromptPackerConfig where
  includeFilePaths : Bool := true
  includeLineNumbers : Bool := true
  itemSeparator : String := "\n\n---\n\n"
  maxTokensPerItem : ℕ := 1000
deriving DecidableEq, Repr

/-- `PackingResult`. -/
structure PackingResult where
  items : List ContextItem
  tokensUsed : ℕ
  packedCount : ℕ
  truncatedCount : ℕ
  wasTruncated : Bool
deriving DecidableEq, Repr

namespace PromptPacker

/-- `PromptPacker.formatContextItem`: prepends `File: <path>\n\n`, then (when
a line range is present) prepends `Lines <start>-<end>\n` in front of that. -/
def formatContextItem (cfg : PromptPackerConfig) (c : RetrievalCandidate) :
    ContextItem :=
  let content1 :=
    if cfg.includeFilePaths then "File: " ++ c.filePath ++ "\n\n" ++ c.content
    else c.content
  let content2 :=
    match c.lineRange with
    | some lr =>
      if cfg.includeLineNumbers then
        "Lines " ++ toString lr.start ++ "-" ++ toString lr.end_ ++ "\n" ++
          content1
      else content1
    | none => content1
  { name := c.filePath
    description := "Score: " ++ jsToFixed3 c.score ++ " | Method: " ++ c.method
    content := content2 }

/-- `PromptPacker.countItemTokens` (an empty description is falsy in JS and
contributes 0, which coincides with counting it). -/
def countItemTokens (cfg : PromptPackerConfig) (item : ContextItem) : ℕ :=
  TokenCounter.countTokens item.name +
    (if item.description = "" then 0
     else TokenCounter.countTokens item.description) +
    TokenCounter.countTokens item.content +
    TokenCounter.countTokens cfg.itemSeparator

/-- `PromptPacker.truncateContent`: cut to `tokenBudget * 4` characters when
longer. -/
def truncateContent (content : String) (tokenBudget : ℤ) : String :=
  let estimatedChars := tokenBudget * 4
  if (content.data.length : ℤ) ≤ estimatedChars then content
  else jsSubstringTo content estimatedChars

/-- Overhead of an item: name + description + separator tokens. -/
def itemOverhead (cfg : PromptPackerConfig) (item : ContextItem) : ℕ :=
  TokenCounter.countTokens item.name +
    (if item.description = "" then 0
     else TokenCounter.countTokens item.description) +
    TokenCounter.countTokens cfg.itemSeparator

/-- `PromptPacker.truncateItem`: `null` when `tokenBudget - overhead ≤ 50`,
otherwise the item with its content cut and the truncation marker
appended. -/
def truncateItem (cfg : PromptPackerConfig) (item : ContextItem)
    (tokenBudget : ℤ) : Option ContextItem :=
  let contentBudget : ℤ := tokenBudget - itemOverhead cfg item
  if contentBudget ≤ 50 then none
  else some { item with
    content := truncateContent item.content contentBudget ++
      "\n\n[... truncated ...]" }

/-- The packing loop of `PromptPacker.pack`, in candidate order, carrying
`tokensUsed`; returns (items, tokensUsed, packedCount, truncatedCount).
It stops (`break`) at the first candidate that does not fit. -/
def packGo (cfg : PromptPackerConfig) (tokenBudget : ℤ) :
    List RetrievalCandidate → ℕ → List ContextItem × ℕ × ℕ × ℕ
  | [], used => ([], used, 0, 0)
  | c :: cs, used =>
    let item := formatContextItem cfg c
    let itemTokens := countItemTokens cfg item
    if ((used + itemTokens : ℕ) : ℤ) ≤ tokenBudget then
      let rest := packGo cfg tokenBudget cs (used + itemTokens)
      (item :: rest.1, rest.2.1, rest.2.2.1 + 1, rest.2.2.2)
    else
      let remainingBudget : ℤ := tokenBudget - used
      if 100 < remainingBudget then
        match truncateItem cfg item remainingBudget with
        | some truncatedItem =>
          ([truncatedItem], used + countItemTokens cfg truncatedItem, 1, 1)
        | none => ([], used, 0, 0)
      else ([], used, 0, 0)

/-- `PromptPacker.pack`: sort by score descending (stable), then pack. -/
def pack (cfg : PromptPackerConfig) (candidates : List RetrievalCandidate)
    (tokenBudget : ℤ) : PackingResult :=
  let sortedCandidates := sortByScoreDesc candidates
  let r := packGo cfg tokenBudget sortedCandidates 0
  { items := r.1
    tokensUsed := r.2.1
    packedCount := r.2.2.1
    truncatedCount := r.2.2.2
    wasTruncated := decide (0 < r.2.2.2) || decide (r.2.2.1 < candidates.length) }

end PromptPacker

/-! ## BudgetAllocator (`src/core/context-engine/budget/TruncationStrategy.ts`,
second half of the file) -/

/-- `BudgetAllocatorConfig` with constructor defaults. -/
structure BudgetAllocatorConfig where
  systemTokens : ℤ := 50
  minContextTokens : ℤ := 20
  maxContextTokens : ℤ := 8000
  contextPercentage : ℚ := 1 / 2
  taskPercentage : ℚ := 1 / 10
  reservedTokens : ℤ := 10
deriving DecidableEq, Repr

/-- The two `throw new Error(...)` sites of `BudgetAllocator.allocate`. -/
inductive AllocError where
  | invalidBudget
  | insufficientBudget (needed : ℤ) (got : ℤ)
deriving DecidableEq, Repr

/-- `BudgetAllocation`: the `Map<PromptSection, number>` has exactly the five
keys `system, input, context, task, output`, set in that order; modelled as a
fixed-shape record. -/
structure BudgetAllocation where
  totalBudget : ℤ
  system : ℤ
  input : ℤ
  context : ℤ
  task : ℤ
  output : ℤ
  reserved : ℤ
deriving DecidableEq, Repr

namespace BudgetAllocator

/-- `BudgetAllocator.adjustPercentagesForIntent`. -/
def adjustPercentagesForIntent (cfg : BudgetAllocatorConfig)
    (intent : Option IntentType) : ℚ × ℚ :=
  match intent with
  | none => (cfg.contextPercentage, cfg.taskPercentage)
  | some IntentType.explain => (6 / 10, 5 / 100)
  | some IntentType.bug_fix => (5 / 10, 1 / 10)
  | some IntentType.refactor => (55 / 100, 1 / 10)
  | some IntentType.generate => (4 / 10, 1 / 10)
  | some IntentType.test => (5 / 10, 1 / 10)

/-- `BudgetAllocator.allocate`. -/
def allocate (cfg : BudgetAllocatorConfig) (totalBudget inputTokens : ℤ)
    (intent : Option IntentType) : Except AllocError BudgetAllocation :=
  if totalBudget ≤ 0 then Except.error AllocError.invalidBudget
  else
    let fixedCosts := cfg.systemTokens + cfg.reservedTokens
    let availableBudget := totalBudget - fixedCosts - inputTokens
    if availableBudget ≤ 0 then
      Except.error (AllocError.insufficientBudget (fixedCosts + inputTokens)
        totalBudget)
    else
      let pcts := adjustPercentagesForIntent cfg intent
      let contextTokens0 : ℤ := ⌊(availableBudget : ℚ) * pcts.1⌋
      let contextTokens : ℤ :=
        max cfg.minContextTokens (min cfg.maxContextTokens contextTokens0)
      let taskTokens : ℤ := ⌊(availableBudget : ℚ) * pcts.2⌋
      let usedTokens := cfg.systemTokens + inputTokens + contextTokens +
        taskTokens + cfg.reservedTokens
      let outputTokens := max 0 (totalBudget - usedTokens)
      Except.ok
        { totalBudget := totalBudget
          system := cfg.systemTokens
          input := inputTokens
          context := contextTokens
          task := taskTokens
          output := outputTokens
          reserved := cfg.reservedTokens }

end BudgetAllocator

/-! ## TruncationStrategy (`src/core/context-engine/budget/TruncationStrategy.ts`,
first half) -/

/-- `TruncationMode`. -/
inductive TruncationMode where
  | drop_lowest
  | proportional
  | keep_first
  | smart
deriving DecidableEq, Repr

/-- `TruncationResult`. -/
structure TruncationResult where
  candidates : List RetrievalCandidate
  totalTokens : ℕ
  droppedCount : ℕ
  truncatedCount : ℕ
  mode : TruncationMode
deriving DecidableEq, Repr

namespace TruncationStrategy

/-- The keep-while-it-fits loop shared by `truncateDropLowest` (on the sorted
list) and `truncateKeepFirst` (on the given list); returns the kept
candidates and the final `totalTokens`. -/
def keepGo (tokenBudget : ℤ) :
    List RetrievalCandidate → ℕ → List RetrievalCandidate × ℕ
  | [], total => ([], total)
  | c :: cs, total =>
    let tokens := TokenCounter.countTokens c.content
    if ((total + tokens : ℕ) : ℤ) ≤ tokenBudget then
      let rest := keepGo tokenBudget cs (total + tokens)
      (c :: rest.1, rest.2)
    else ([], total)

/-- `TruncationStrategy.truncateDropLowest`. -/
def truncateDropLowest (candidates : List RetrievalCandidate)
    (tokenBudget : ℤ) : TruncationResult :=
  let sorted := sortByScoreDesc candidates
  let r := keepGo tokenBudget sorted 0
  { candidates := r.1
    totalTokens := r.2
    droppedCount := candidates.length - r.1.length
    truncatedCount := 0
    mode := TruncationMode.drop_lowest }

/-- `TruncationStrategy.truncateKeepFirst`. -/
def truncateKeepFirst (candidates : List RetrievalCandidate)
    (tokenBudget : ℤ) : TruncationResult :=
  let r := keepGo tokenBudget candidates 0
  { candidates := r.1
    totalTokens := r.2
    droppedCount := candidates.length - r.1.length
    truncatedCount := 0
    mode := TruncationMode.keep_first }

/-- Total content tokens of a candidate list. -/
def sumContentTokens (candidates : List RetrievalCandidate) : ℕ :=
  (candidates.map (fun c => TokenCounter.countTokens c.content)).sum

/-- `TruncationStrategy.truncateProportional`. -/
def truncateProportional (candidates : List RetrievalCandidate)
    (tokenBudget : ℤ) : TruncationResult :=
  if candidates = [] then
    { candidates := []
      totalTokens := 0
      droppedCount := 0
      truncatedCount := 0
      mode := TruncationMode.proportional }
  else
    let totalTokensNeeded := sumContentTokens candidates
    if ((totalTokensNeeded : ℕ) : ℤ) ≤ tokenBudget then
      { candidates := candidates
        totalTokens := totalTokensNeeded
        droppedCount := 0
        truncatedCount := 0
        mode := TruncationMode.proportional }
    else
      let ratio : ℚ := (tokenBudget : ℚ) / (totalTokensNeeded : ℚ)
      let truncated := candidates.map (fun c =>
        let originalTokens := TokenCounter.countTokens c.content
        let targetTokens : ℤ := ⌊(originalTokens : ℚ) * ratio⌋
        let targetChars : ℤ := targetTokens * 4
        if (c.content.data.length : ℤ) ≤ targetChars then c
        else { c with
          content := jsSubstringTo c.content targetChars ++
            "\n\n[... truncated ...]"
          metadata := { c.metadata with
            wasTruncated := true
            originalLength := some c.content.data.length } })
      { candidates := truncated
        totalTokens := sumContentTokens truncated
        droppedCount := 0
        truncatedCount := (truncated.filter (fun c => c.metadata.wasTruncated)).length
        mode := TruncationMode.proportional }

/-- `TruncationStrategy.truncate`; the `mode` parameter defaults to
`DROP_LOWEST`, and `SMART` currently delegates to `truncateDropLowest`
(the returned `mode` field is then `drop_lowest`). -/
def truncate (candidates : List RetrievalCandidate) (tokenBudget : ℤ)
    (mode : TruncationMode := TruncationMode.drop_lowest) : TruncationResult :=
  match mode with
  | TruncationMode.drop_lowest => truncateDropLowest candidates tokenBudget
  | TruncationMode.proportional => truncateProportional candidates tokenBudget
  | TruncationMode.keep_first => truncateKeepFirst candidates tokenBudget
  | TruncationMode.smart => truncateDropLowest candidates tokenBudget

end TruncationStrategy

/-! ## SemanticRetriever (`src/unnamed/part_003`, second half) -/

/-- A row returned by `vectorStore.search` (the store is an external
collaborator; its output list is a parameter of the embedded `retrieve`).
`score` is the raw cosine similarity. -/
structure VectorSearchResult where
  content : String
  score : ℚ
  filePath : String
  lineRange : Option LineRange := none
  language : Option String := none
  symbolName : Option String := none
  symbolType : Option String := none
  lastModified : Option ℚ := none
deriving DecidableEq, Repr

/-- `SemanticRetrieverConfig` with constructor defaults. -/
structure SemanticRetrieverConfig where
  defaultLimit : ℕ := 10
  minSimilarity : ℚ := 1 / 2
  useReranking : Bool := false
deriving DecidableEq, Repr

/-- JavaScript `s.toLowerCase()` for the ASCII strings of this development
(character-wise lowering). -/
def jsToLowerCase (s : String) : String :=
  String.mk (s.data.map Char.toLower)

/-- Does `hay` start with `pat`? -/
def listStarts (pat hay : List Char) : Bool :=
  match pat, hay with
  | [], _ => true
  | _ :: _, [] => false
  | p :: ps, h :: hs => p = h && listStarts ps hs

/-- Does `pat` occur contiguously in `hay`? -/
def listContains (pat hay : List Char) : Bool :=
  listStarts pat hay ||
    (match hay with
     | [] => false
     | _ :: hs => listContains pat hs)

/-- JavaScript `hay.includes(pat)` on strings. -/
def jsIncludes (hay pat : String) : Bool :=
  listContains pat.data hay.data

/-- `filterByFilePatterns` (shared shape across the retrievers). -/
def filterByFilePatterns (candidates : List RetrievalCandidate)
    (patterns : List String) : List RetrievalCandidate :=
  candidates.filter (fun c => patterns.any (fun p => jsIncludes c.filePath p))

/-- `filterByLanguages` (shared shape across the retrievers). -/
def filterByLanguages (candidates : List RetrievalCandidate)
    (languages : List String) : List RetrievalCandidate :=
  candidates.filter (fun c =>
    match c.metadata.language with
    | none => false
    | some lang => languages.contains lang)

namespace SemanticRetriever

/-- `SemanticRetriever.normalizeScore`: map cosine from `[-1,1]` to `[0,1]`
by `(s + 1) / 2`. -/
def normalizeScore (rawScore : ℚ) : ℚ :=
  (rawScore + 1) / 2

/-- Conversion of a filtered vector result to a candidate (step 4 of
`retrieve`). -/
def toCandidate (r : VectorSearchResult) : RetrievalCandidate :=
  { filePath := r.filePath
    content := r.content
    score := normalizeScore r.score
    method := "semantic"
    lineRange := r.lineRange
    metadata :=
      { language := r.language
        symbolName := r.symbolName
        symbolType := r.symbolType
        lastModified := r.lastModified
        rawScore := some r.score } }

/-- `SemanticRetriever.retrieve`, given the vector store's search output
`vectorResults` (already the top-`limit` rows): filter the RAW scores by
`min_score`, then normalize, then apply the file/language filters. -/
def retrieve (cfg : SemanticRetrieverConfig)
    (vectorResults : List VectorSearchResult) (query : RetrievalQuery) :
    List RetrievalCandidate :=
  let minScore := query.minScore.getD cfg.minSimilarity
  let filteredResults := vectorResults.filter (fun r => minScore ≤ r.score)
  let candidates := filteredResults.map toCandidate
  let afterPatterns :=
    match query.filePatterns with
    | some pats => if pats ≠ [] then filterByFilePatterns candidates pats
                   else candidates
    | none => candidates
  match query.languages with
  | some langs => if langs ≠ [] then filterByLanguages afterPatterns langs
                  else afterPatterns
  | none => afterPatterns

/-- The procedure in the words of the spec (§4.8 Semantic): "normalize cosine
to `[0,1]`; drop entries below `min_score`" — normalization FIRST, threshold
applied to the normalized value. Stated only for comparison with the code's
`retrieve`. -/
def retrieveSpecOrder (cfg : SemanticRetrieverConfig)
    (vectorResults : List VectorSearchResult) (query : RetrievalQuery) :
    List RetrievalCandidate :=
  let minScore := query.minScore.getD cfg.minSimilarity
  let candidates := vectorResults.map toCandidate
  let kept := candidates.filter (fun c => minScore ≤ c.score)
  let afterPatterns :=
    match query.filePatterns with
    | some pats => if pats ≠ [] then filterByFilePatterns kept pats
                   else kept
    | none => kept
  match query.languages with
  | some langs => if langs ≠ [] then filterByLanguages afterPatterns langs
                  else afterPatterns
  | none => afterPatterns

end SemanticRetriever

/-! ## CandidateFusion (`src/unnamed/part_004`) -/

/-- `FusionConfig` with constructor defaults; `methodWeights` is optional and
not set by `ContextEngine`, whose constructor calls `new CandidateFusion()`. -/
structure FusionConfig where
  rrfK : ℚ := 60
  methodWeights : Option (List (String × ℚ)) := none
  deduplicate : Bool := true
  deduplicationThreshold : ℚ := 9 / 10
deriving DecidableEq, Repr

namespace CandidateFusion

/-- `CandidateFusion.getCandidateKey`: `"<filePath>:<start>-<end>"` or
`"<filePath>:full"`. -/
def getCandidateKey (c : RetrievalCandidate) : String :=
  let lineRange :=
    match c.lineRange with
    | some lr => toString lr.start ++ "-" ++ toString lr.end_
    | none => "full"
  c.filePath ++ ":" ++ lineRange

/-- `this.config.methodWeights?.get(method) ?? 1.0`. -/
def weightOf (cfg : FusionConfig) (method : String) : ℚ :=
  match cfg.methodWeights with
  | none => 1
  | some ws => (alookup ws method).getD 1

/-- `CandidateFusion.normalizeRRFScore`: `s / (s + 1)`. -/
def normalizeRRFScore (rrfScore : ℚ) : ℚ :=
  rrfScore / (rrfScore + 1)

/-- One step of the per-list `forEach` of `fuse`: accumulate the RRF
contribution `weight / (k + rank + 1)` under the candidate's key and keep the
candidate with the highest original score (first one wins ties). -/
def fuseStep (cfg : FusionConfig) (weight : ℚ)
    (st : List (String × ℚ) × List (String × RetrievalCandidate))
    (rc : ℕ × RetrievalCandidate) :
    List (String × ℚ) × List (String × RetrievalCandidate) :=
  let key := getCandidateKey rc.2
  let rrfScore := weight / (cfg.rrfK + (rc.1 : ℚ) + 1)
  let scores := mapSet st.1 key ((alookup st.1 key).getD 0 + rrfScore)
  let cmap :=
    match alookup st.2 key with
    | none => mapSet st.2 key rc.2
    | some existing =>
      if existing.score < rc.2.score then mapSet st.2 key rc.2 else st.2
  (scores, cmap)

/-- Processing of one candidate list (step 1 of `fuse`): empty lists are
skipped; the weight is looked up from the FIRST candidate's method. -/
def fuseList (cfg : FusionConfig)
    (st : List (String × ℚ) × List (String × RetrievalCandidate))
    (candidates : List RetrievalCandidate) :
    List (String × ℚ) × List (String × RetrievalCandidate) :=
  match candidates with
  | [] => st
  | c0 :: _ =>
    candidates.enum.foldl (fuseStep cfg (weightOf cfg c0.method)) st

/-- `CandidateFusion.tokenize`: lower-case, split on `\W+`, keep tokens of
length > 2. `\w` is `[A-Za-z0-9_]`. -/
def isWordChar (c : Char) : Bool :=
  c.isAlpha || c.isDigit || c = '_'

/-- Maximal runs of characters satisfying `p`. -/
def runsOf (p : Char → Bool) : List Char → List (List Char)
  | [] => []
  | c :: cs =>
    if p c then
      match runsOf p cs with
      | [] => [[c]]
      | r :: rs =>
        match cs with
        | [] => [[c]]
        | c' :: _ => if p c' then (c :: r) :: rs else [c] :: r :: rs
    else runsOf p cs

/-- `CandidateFusion.tokenize`. -/
def tokenize (content : String) : List String :=
  ((runsOf isWordChar (jsToLowerCase content).data).map (fun r => String.mk r)).filter
    (fun t => 2 < t.data.length)

/-- Distinct elements in first-occurrence order (a JS `Set`). -/
def distinctList (l : List String) : List String :=
  l.foldl (fun acc t => if acc.contains t then acc else acc ++ [t]) []

/-- `CandidateFusion.hasOverlappingLines`. -/
def hasOverlappingLines (a b : RetrievalCandidate) : Bool :=
  match a.lineRange, b.lineRange with
  | some ra, some rb =>
    !(decide (ra.end_ < rb.start) || decide (rb.end_ < ra.start))
  | _, _ => false

/-- `CandidateFusion.calculateSimilarity`: 1.0 for same file with overlapping
lines, otherwise Jaccard similarity of the token sets (a `0/0` JS `NaN`
compares below any threshold, matching `0` here). -/
def calculateSimilarity (a b : RetrievalCandidate) : ℚ :=
  if a.filePath = b.filePath && hasOverlappingLines a b then 1
  else
    let tokensA := distinctList (tokenize a.content)
    let tokensB := distinctList (tokenize b.content)
    let intersectionSize := (tokensA.filter (fun t => tokensB.contains t)).length
    let unionSize :=
      (tokensA ++ tokensB.filter (fun t => !(tokensA.contains t))).length
    (intersectionSize : ℚ) / (unionSize : ℚ)

/-- The greedy keep-loop of `deduplicateCandidates` over the score-sorted
list; `acc` is the list kept so far, in order. -/
def dedupGo (cfg : FusionConfig) :
    List RetrievalCandidate → List RetrievalCandidate →
    List RetrievalCandidate
  | [], acc => acc
  | c :: cs, acc =>
    if acc.any (fun e => decide (cfg.deduplicationThreshold ≤ calculateSimilarity c e))
    then dedupGo cfg cs acc
    else dedupGo cfg cs (acc ++ [c])

/-- `CandidateFusion.deduplicateCandidates`. -/
def deduplicateCandidates (cfg : FusionConfig)
    (candidates : List RetrievalCandidate) : List RetrievalCandidate :=
  dedupGo cfg (sortByScoreDesc candidates) []

/-- `CandidateFusion.fuse`. -/
def fuse (cfg : FusionConfig) (candidateLists : List (List RetrievalCandidate)) :
    List RetrievalCandidate :=
  let st := candidateLists.foldl (fuseList cfg) ([], [])
  let fusedCandidates := st.2.map (fun kc =>
    let fusedScore := (alookup st.1 kc.1).getD 0
    { kc.2 with
      score := normalizeRRFScore fusedScore
      metadata := { kc.2.metadata with
        originalScore := some kc.2.score
        rrfScore := some fusedScore } })
  let finalCandidates :=
    if cfg.deduplicate then deduplicateCandidates cfg fusedCandidates
    else fusedCandidates
  sortByScoreDesc finalCandidates

end CandidateFusion

/-! ## Ranker (`src/core/context-engine/retrieval/Ranker.ts`)

`rank` takes `Math.exp` as the parameter `rexp : ℚ → ℚ` and `Date.now()` as
the parameter `now : ℚ`; they are only reached when a candidate carries a
`lastModified` timestamp. -/

/-- `RankerConfig` with constructor defaults. -/
structure RankerConfig where
  semanticWeight : ℚ := 1 / 2
  recencyWeight : ℚ := 2 / 10
  fileTypeWeight : ℚ := 15 / 100
  symbolTypeWeight : ℚ := 15 / 100
  applyDiversityPenalty : Bool := true
deriving DecidableEq, Repr

namespace Ranker

/-- `Ranker.calculateRecencyScore`: neutral `0.5` without a timestamp, else
`exp(-0.1 * ageHours)` with `ageHours = (now - lastModified) / 3600000`. -/
def calculateRecencyScore (rexp : ℚ → ℚ) (now : ℚ)
    (c : RetrievalCandidate) : ℚ :=
  match c.metadata.lastModified with
  | none => 1 / 2
  | some lastModified =>
    let ageHours := (now - lastModified) / (60 * 60 * 1000)
    rexp (-(1 / 10) * ageHours)

/-- Is the (lower-cased) path a test path (`.test.`, `.spec.`,
`__tests__`)? -/
def isTestPath (filePath : String) : Bool :=
  jsIncludes filePath ".test." || jsIncludes filePath ".spec." ||
    jsIncludes filePath "__tests__"

/-- `Ranker.calculateFileTypeScore`. -/
def calculateFileTypeScore (c : RetrievalCandidate) (intent : IntentType) : ℚ :=
  let filePath := jsToLowerCase c.filePath
  match intent with
  | IntentType.test => if isTestPath filePath then 1 else 3 / 10
  | IntentType.bug_fix => if isTestPath filePath then 3 / 10 else 1
  | IntentType.refactor => if isTestPath filePath then 2 / 10 else 1
  | _ => 1 / 2

/-- `Ranker.calculateSymbolTypeScore`. -/
def calculateSymbolTypeScore (c : RetrievalCandidate) (intent : IntentType) : ℚ :=
  match c.metadata.symbolType with
  | none => 1 / 2
  | some st0 =>
    let symbolType := jsToLowerCase st0
    match intent with
    | IntentType.refactor =>
      if symbolType = "class" || symbolType = "function" then 1 else 1 / 2
    | IntentType.generate =>
      if symbolType = "function" || symbolType = "method" then 1 else 1 / 2
    | _ => 1 / 2

/-- `Ranker.calculateFinalScore` (the `query` argument is unused in the
source as well); clamped to `[0, 1]`. -/
def calculateFinalScore (cfg : RankerConfig) (rexp : ℚ → ℚ) (now : ℚ)
    (c : RetrievalCandidate) (intent : IntentType) (_query : String) : ℚ :=
  let score := c.score * cfg.semanticWeight +
    calculateRecencyScore rexp now c * cfg.recencyWeight +
    calculateFileTypeScore c intent * cfg.fileTypeWeight +
    calculateSymbolTypeScore c intent * cfg.symbolTypeWeight
  max 0 (min 1 score)

/-- The loop of `Ranker.applyDiversityPenalty`, carrying the per-file
counter map: the `n`-th candidate seen from a file (0-based, in LIST order)
is multiplied by `1 / (1 + n)`. -/
def divGo : List RetrievalCandidate → List (String × ℕ) →
    List RetrievalCandidate
  | [], _ => []
  | c :: cs, fileCount =>
    let count := (alookup fileCount c.filePath).getD 0
    let penalty : ℚ := 1 / (1 + (count : ℚ))
    { c with
      score := c.score * penalty
      metadata := { c.metadata with diversityPenalty := some penalty } } ::
      divGo cs (mapSet fileCount c.filePath (count + 1))

/-- `Ranker.applyDiversityPenalty`. -/
def applyDiversityPenalty (candidates : List RetrievalCandidate) :
    List RetrievalCandidate :=
  divGo candidates []

/-- Step 1 of `Ranker.rank`: the `scoredCandidates` list, every score
recomputed by `calculateFinalScore`. -/
def scoreCandidates (cfg : RankerConfig) (rexp : ℚ → ℚ) (now : ℚ)
    (candidates : List RetrievalCandidate) (intent : IntentType)
    (query : String) : List RetrievalCandidate :=
  candidates.map (fun c =>
    { c with score := calculateFinalScore cfg rexp now c intent query })

/-- `Ranker.rank`: (1) recompute every score with `calculateFinalScore`,
(2) apply the diversity penalty to that list IN ITS GIVEN ORDER,
(3) sort by score descending (stable). -/
def rank (cfg : RankerConfig) (rexp : ℚ → ℚ) (now : ℚ)
    (candidates : List RetrievalCandidate) (intent : IntentType)
    (query : String) : List RetrievalCandidate :=
  let scoredCandidates := scoreCandidates cfg rexp now candidates intent query
  let finalCandidates :=
    if cfg.applyDiversityPenalty then applyDiversityPenalty scoredCandidates
    else scoredCandidates
  sortByScoreDesc finalCandidates

/-- The ranking procedure in the words of the spec (§4.10): the diversity
penalty visits candidates "in final-score order", i.e. after sorting by the
weighted-sum score, and the list is re-sorted after the penalty. Stated only
for comparison with the code's `rank`. -/
def rankSpecOrder (cfg : RankerConfig) (rexp : ℚ → ℚ) (now : ℚ)
    (candidates : List RetrievalCandidate) (intent : IntentType)
    (query : String) : List RetrievalCandidate :=
  let scoredCandidates := scoreCandidates cfg rexp now candidates intent query
  let visited := sortByScoreDesc scoredCandidates
  let finalCandidates :=
    if cfg.applyDiversityPenalty then applyDiversityPenalty visited
    else visited
  sortByScoreDesc finalCandidates

end Ranker

/-! ## RetrievalStrategySelector
(`src/core/context-engine/intent/RetrievalStrategySelector.ts`) -/

/-- `RetrievalMethod`. -/
inductive RetrievalMethod where
  | semantic
  | lexical
  | dependency
  | recent_edits
deriving DecidableEq, Repr

/-- The string value of each `RetrievalMethod` enum member
(`method.toString()`). -/
def methodName : RetrievalMethod → String
  | RetrievalMethod.semantic => "semantic"
  | RetrievalMethod.lexical => "lexical"
  | RetrievalMethod.dependency => "dependency"
  | RetrievalMethod.recent_edits => "recent_edits"

/-- `RetrievalStrategy`. -/
structure RetrievalStrategy where
  methods : List RetrievalMethod
  weights : List (RetrievalMethod × ℚ)
deriving DecidableEq, Repr

namespace RetrievalStrategySelector

/-- `RetrievalStrategySelector.selectStrategy` with the five per-intent
strategy constructors inlined. -/
def selectStrategy (intent : IntentType) : RetrievalStrategy :=
  match intent with
  | IntentType.explain =>
    { methods := [RetrievalMethod.semantic, RetrievalMethod.lexical,
        RetrievalMethod.dependency]
      weights := [(RetrievalMethod.semantic, 6 / 10),
        (RetrievalMethod.lexical, 3 / 10), (RetrievalMethod.dependency, 1 / 10)] }
  | IntentType.bug_fix =>
    { methods := [RetrievalMethod.recent_edits, RetrievalMethod.semantic,
        RetrievalMethod.dependency, RetrievalMethod.lexical]
      weights := [(RetrievalMethod.recent_edits, 4 / 10),
        (RetrievalMethod.semantic, 3 / 10), (RetrievalMethod.dependency, 2 / 10),
        (RetrievalMethod.lexical, 1 / 10)] }
  | IntentType.refactor =>
    { methods := [RetrievalMethod.dependency, RetrievalMethod.semantic,
        RetrievalMethod.lexical]
      weights := [(RetrievalMethod.dependency, 5 / 10),
        (RetrievalMethod.semantic, 4 / 10), (RetrievalMethod.lexical, 1 / 10)] }
  | IntentType.generate =>
    { methods := [RetrievalMethod.semantic, RetrievalMethod.lexical,
        RetrievalMethod.dependency]
      weights := [(RetrievalMethod.semantic, 6 / 10),
        (RetrievalMethod.lexical, 3 / 10), (RetrievalMethod.dependency, 1 / 10)] }
  | IntentType.test =>
    { methods := [RetrievalMethod.dependency, RetrievalMethod.semantic,
        RetrievalMethod.lexical]
      weights := [(RetrievalMethod.dependency, 4 / 10),
        (RetrievalMethod.semantic, 4 / 10), (RetrievalMethod.lexical, 2 / 10)] }

end RetrievalStrategySelector

/-! ## ContextEngine (`src/core/context-engine/ContextEngine.ts`, the
Phase-4 version in the second half of the file)

The engine's constructor instantiates every collaborator with its DEFAULT
configuration: `new CandidateFusion()`, `new Ranker()`, `new TokenCounter()`,
`new BudgetAllocator()`, `new PromptPacker(tokenCounter)`. The registered
retrievers (a `Map` name → retriever) are modelled as an association list of
result functions; the `IntentClassifier` (not among the given sources) is
modelled as an opaque parameter `classify`. -/

/-- `ContextQuery` (the fields read by `query`). -/
structure ContextQuery where
  input : String
  intent : Option IntentType := none
  tokenBudget : ℤ
deriving DecidableEq, Repr

/-- `ContextResult`. -/
structure ContextResult where
  items : List ContextItem
  intent : IntentType
  tokensUsed : ℕ
  retrievalMethods : List String
deriving DecidableEq, Repr

/-- The `throw` sites of `ContextEngine.query`. -/
inductive EngineError where
  | notInitialized
  | invalidBudget
  | alloc (e : AllocError)
deriving DecidableEq, Repr

namespace ContextEngine

/-- `ContextEngine.query`. `retrievers` maps a registered name to the
function from the retrieval query to that retriever's candidate list (the
asynchronous store reads are deterministic within one call); an unregistered
method yields `[]`. -/
def query (initialized : Bool) (classify : String → IntentType)
    (retrievers : List (String × (RetrievalQuery → List RetrievalCandidate)))
    (rexp : ℚ → ℚ) (now : ℚ) (q : ContextQuery) :
    Except EngineError ContextResult :=
  if !initialized then Except.error EngineError.notInitialized
  else if q.tokenBudget ≤ 0 then Except.error EngineError.invalidBudget
  else
    let intent := q.intent.getD (classify q.input)
    let strategy := RetrievalStrategySelector.selectStrategy intent
    let retrievalQuery : RetrievalQuery := { text := q.input, limit := some 20 }
    let candidateLists := strategy.methods.map (fun m =>
      match alookup retrievers (methodName m) with
      | none => []
      | some retrieverFn => retrieverFn retrievalQuery)
    let fusedCandidates := CandidateFusion.fuse {} candidateLists
    let rankedCandidates := Ranker.rank {} rexp now fusedCandidates intent q.input
    let inputTokens := TokenCounter.countTokens q.input
    match BudgetAllocator.allocate {} q.tokenBudget (inputTokens : ℤ)
        (some intent) with
    | Except.error e => Except.error (EngineError.alloc e)
    | Except.ok budgetAllocation =>
      let contextBudget := budgetAllocation.context
      let packingResult := PromptPacker.pack {} rankedCandidates contextBudget
      Except.ok
        { items := packingResult.items
          intent := intent
          tokensUsed := packingResult.tokensUsed
          retrievalMethods := strategy.methods.map methodName }

end ContextEngine

/-! ## Concrete inputs used by the claim theorems -/

/-- A candidate whose content is 300 `.` characters: the character-estimate
truncation keeps far more measured tokens (1 per `.`) than the budget. -/
def c1FailingCandidate : RetrievalCandidate :=
  { filePath := "f", content := String.mk (List.replicate 300 '.')
    score := 1 / 2, method := "semantic" }

/-- A candidate whose `filePath` is 150 `.` characters, giving an item
overhead of 163 tokens (the path is repeated in `name` and in the header). -/
def c5OverheadCandidate : RetrievalCandidate :=
  { filePath := String.mk (List.replicate 150 '.'), content := "hello"
    score := 1 / 2, method := "semantic" }

/-- Equal-score candidate from file "b" (before its "a" twin in input). -/
def c2FileB : RetrievalCandidate :=
  { filePath := "b", content := "x", score := 1 / 2, method := "semantic" }

/-- Equal-score candidate from file "a". -/
def c2FileA : RetrievalCandidate :=
  { filePath := "a", content := "x", score := 1 / 2, method := "semantic" }

/-- Low-scored candidate of file "f", first in fusion order. -/
def c7Low : RetrievalCandidate :=
  { filePath := "f", content := "low", score := 2 / 10, method := "semantic" }

/-- High-scored candidate of file "f", second in fusion order. -/
def c7High : RetrievalCandidate :=
  { filePath := "f", content := "high", score := 8 / 10, method := "semantic" }

/-- S4-style chunk `pa:1-5` as returned at rank 0 by the semantic list. -/
def c3ChunkA : RetrievalCandidate :=
  { filePath := "pa", content := "alpha", score := 9 / 10, method := "semantic"
    lineRange := some ⟨1, 5⟩ }

/-- Rank-0 filler of the lexical list. -/
def c3FillerX : RetrievalCandidate :=
  { filePath := "px", content := "beta", score := 8 / 10, method := "lexical"
    lineRange := some ⟨1, 5⟩ }

/-- Rank-1 filler of the lexical list. -/
def c3FillerY : RetrievalCandidate :=
  { filePath := "py", content := "gamma", score := 7 / 10, method := "lexical"
    lineRange := some ⟨1, 5⟩ }

/-- The same chunk `pa:1-5` as returned at rank 2 by the lexical list. -/
def c3ChunkA2 : RetrievalCandidate :=
  { filePath := "pa", content := "alpha", score := 6 / 10, method := "lexical"
    lineRange := some ⟨1, 5⟩ }

/-- The two lists of the fusion scenario: `pa:1-5` at ranks 0 and 2. -/
def c3Lists : List (List RetrievalCandidate) :=
  [[c3ChunkA], [c3FillerX, c3FillerY, c3ChunkA2]]

/-- A vector search row whose raw cosine is 0.4 (below the default 0.5)
while its normalized score (0.4+1)/2 = 0.7 is above it. -/
def c6RawLow : VectorSearchResult :=
  { content := "code", score := 4 / 10, filePath := "pa" }

/-- A vector search row whose raw cosine 0.6 passes the raw threshold. -/
def c6RawHigh : VectorSearchResult :=
  { content := "code", score := 6 / 10, filePath := "pb" }

/-- A candidate with a line range, exercising the format header order. -/
def c8Demo : RetrievalCandidate :=
  { filePath := "a", content := "code", score := 1 / 2, method := "semantic"
    lineRange := some ⟨1, 2⟩ }

/-- Fallback candidate for positional (`getD`) indexing in statements. -/
def emptyCandidate : RetrievalCandidate :=
  { filePath := "", content := "", score := 0, method := "" }

/-- Strict lexicographic order on character lists (by code point). -/
def charListLt : List Char → List Char → Bool
  | [], [] => false
  | [], _ :: _ => true
  | _ :: _, [] => false
  | a :: as, b :: bs =>
    if a.toNat < b.toNat then true
    else if b.toNat < a.toNat then false
    else charListLt as bs

/-- The tie-break order the claim asserts: `(file_path, line_range.start)`
ascending (lexicographic; an absent line range reads as start 0). -/
def c2TieKeyLe (a b : RetrievalCandidate) : Bool :=
  charListLt a.filePath.data b.filePath.data ||
    (decide (a.filePath = b.filePath) &&
      decide ((a.lineRange.map LineRange.start).getD 0 ≤
        (b.lineRange.map LineRange.start).getD 0))

/-- The per-intent (context, task) percentage table as the C4 claim states
it (explain 60/5, bug_fix 50/10, refactor 55/10, generate 40/10, test 50/10,
default 50/10), to be compared against `adjustPercentagesForIntent`. -/
def c4IntentTable : Option IntentType → ℚ × ℚ
  | some IntentType.explain => (60 / 100, 5 / 100)
  | some IntentType.bug_fix => (50 / 100, 10 / 100)
  | some IntentType.refactor => (55 / 100, 10 / 100)
  | some IntentType.generate => (40 / 100, 10 / 100)
  | some IntentType.test => (50 / 100, 10 / 100)
  | none => (50 / 100, 10 / 100)

/-- Per-pair RRF contributions to key `k`, at weight `w`. -/
def pairsRRF (cfg : FusionConfig) (w : ℚ) (k : String)
    (ps : List (ℕ × RetrievalCandidate)) : ℚ :=
  (ps.map (fun rc =>
    if CandidateFusion.getCandidateKey rc.2 = k then
      w / (cfg.rrfK + (rc.1 : ℚ) + 1)
    else 0)).sum

/-- RRF contribution of one candidate list to key `k` (weight from the first
candidate's method; empty lists contribute nothing). -/
def listRRF (cfg : FusionConfig) (k : String)
    (l : List RetrievalCandidate) : ℚ :=
  match l with
  | [] => 0
  | c0 :: _ => pairsRRF cfg (CandidateFusion.weightOf cfg c0.method) k l.enum

/-- Total accumulated RRF score of key `k` over all candidate lists. -/
def rrfSum (cfg : FusionConfig) (k : String)
    (lists : List (List RetrievalCandidate)) : ℚ :=
  (lists.map (listRRF cfg k)).sum

/-- Every entry of the fusion candidate map is stored under its own key. -/
def cmapKeyed (m : List (String × RetrievalCandidate)) : Prop :=
  ∀ p ∈ m, CandidateFusion.getCandidateKey p.2 = p.1

/-- The candidate `fuse` returns for chunk `pa:1-5` of `c3Lists`: kept from
the rank-0 semantic occurrence, scored `normalize(1/61 + 1/63) = 124/3967`. -/
def c3FusedA : RetrievalCandidate :=
  { filePath := "pa", content := "alpha", score := 124 / 3967
    method := "semantic", lineRange := some ⟨1, 5⟩
    metadata := { originalScore := some (9 / 10)
                  rrfScore := some (124 / 3843) } }

deriving instance DecidableEq for Except

/-- The engine result for a query with no registered retrievers. -/
def c9Result : ContextResult :=
  { items := [], intent := IntentType.explain, tokensUsed := 0
    retrievalMethods := ["semantic", "lexical", "dependency"] }

/-! ## Generic lemmas about the embedded primitives -/

theorem alookup_mapSet {α : Type} (m : List (String × α)) (k k' : String)
    (v : α) :
    alookup (mapSet m k v) k' = if k = k' then some v else alookup m k' := by
  induction m with
  | nil =>
    simp only [mapSet, alookup]
  | cons p rest ih =>
    obtain ⟨k0, v0⟩ := p
    by_cases h : k0 = k
    · subst h
      by_cases h' : k0 = k' <;> simp [mapSet, alookup, h']
    · by_cases h' : k0 = k'
      · subst h'
        simp [mapSet, alookup, h, Ne.symm h]
      · simp [mapSet, alookup, h, h', ih]

theorem insertScoreDesc_perm (x : RetrievalCandidate)
    (l : List RetrievalCandidate) : (insertScoreDesc x l).Perm (x :: l) := by
  induction l with
  | nil => simp [insertScoreDesc]
  | cons y ys ih =>
    simp only [insertScoreDesc]
    by_cases h : scoreDescLe x y
    · simp [h]
    · simp only [h, if_false]
      exact (ih.cons y).trans (List.Perm.swap x y ys)

theorem sortByScoreDesc_perm (l : List RetrievalCandidate) :
    (sortByScoreDesc l).Perm l := by
  induction l with
  | nil => simp [sortByScoreDesc]
  | cons x xs ih =>
    exact (insertScoreDesc_perm x (sortByScoreDesc xs)).trans (ih.cons x)

theorem insertScoreDesc_sorted (x : RetrievalCandidate)
    (l : List RetrievalCandidate)
    (h : List.Pairwise (fun a b => b.score ≤ a.score) l) :
    List.Pairwise (fun a b => b.score ≤ a.score) (insertScoreDesc x l) := by
  induction l with
  | nil => simp [insertScoreDesc]
  | cons y ys ih =>
    rcases h with _ | ⟨hy, hys⟩
    by_cases hxy : scoreDescLe x y
    · have hxyq : y.score ≤ x.score := of_decide_eq_true hxy
      simp only [insertScoreDesc, hxy, if_true]
      constructor
      · intro z hz
        rcases List.mem_cons.mp hz with hz | hz
        · exact hz ▸ hxyq
        · exact le_trans (hy z hz) hxyq
      · exact List.Pairwise.cons hy hys
    · have hyxq : x.score ≤ y.score :=
        le_of_lt (lt_of_not_le (fun hc => hxy (decide_eq_true hc)))
      simp only [insertScoreDesc, hxy, if_false]
      constructor
      · intro z hz
        rcases List.mem_cons.mp ((insertScoreDesc_perm x ys).mem_iff.mp hz) with
          hz | hz
        · exact hz ▸ hyxq
        · exact hy z hz
      · exact ih hys

theorem sortByScoreDesc_sorted (l : List RetrievalCandidate) :
    List.Pairwise (fun a b => b.score ≤ a.score) (sortByScoreDesc l) := by
  induction l with
  | nil => simp [sortByScoreDesc]
  | cons x xs ih => exact insertScoreDesc_sorted x (sortByScoreDesc xs) ih

theorem insertScoreDesc_filter_eq (x : RetrievalCandidate)
    (l : List RetrievalCandidate) (s : ℚ) :
    (insertScoreDesc x l).filter (fun c => decide (c.score = s)) =
      if x.score = s then
        x :: l.filter (fun c => decide (c.score = s))
      else l.filter (fun c => decide (c.score = s)) := by
  induction l with
  | nil =>
    by_cases hx : x.score = s <;> simp [insertScoreDesc, hx]
  | cons y ys ih =>
    by_cases hxy : scoreDescLe x y
    · simp only [insertScoreDesc, hxy, if_true]
      by_cases hx : x.score = s <;> simp [List.filter_cons, hx]
    · have hlt : x.score < y.score :=
        lt_of_not_le (fun hc => hxy (decide_eq_true hc))
      simp only [insertScoreDesc, hxy, if_false]
      by_cases hx : x.score = s
      · have hy : ¬(y.score = s) := by
          rw [← hx]
          exact ne_of_gt hlt
        simp [List.filter_cons, hy, ih, hx]
      · by_cases hy : y.score = s <;> simp [List.filter_cons, hy, ih, hx]

theorem sortByScoreDesc_filter_eq (l : List RetrievalCandidate) (s : ℚ) :
    (sortByScoreDesc l).filter (fun c => decide (c.score = s)) =
      l.filter (fun c => decide (c.score = s)) := by
  induction l with
  | nil => rfl
  | cons x xs ih =>
    show (insertScoreDesc x (sortByScoreDesc xs)).filter _ = _
    rw [insertScoreDesc_filter_eq]
    by_cases hx : x.score = s <;> simp [List.filter_cons, hx, ih]

/-! ## C1 -/

/-- C1 (code bug): the claim — re-measured `tokens_used` never exceeds the
context budget — is violated by `pack`: on a single punctuation-dense
candidate and budget 150, the truncated item is accepted without re-checking
its measured size and the result reports 328 tokens used. -/
theorem C1_pack_exceeds_budget_on_truncation :
    ¬((PromptPacker.pack {} [c1FailingCandidate] 150).tokensUsed ≤ 150) ∧
    (PromptPacker.pack {} [c1FailingCandidate] 150).tokensUsed = 328 ∧
    (PromptPacker.pack {} [c1FailingCandidate] 150).truncatedCount = 1 := by
  decide

/-! ## C8 -/

/-- C8 (counterexample): the claim puts the `File:` header first; the code
prepends the `Lines` line in front of it, so the formatted content is
`"Lines 1-2\nFile: a\n\ncode"`, not `"File: a\nLines 1-2\ncode"`. -/
theorem C8_format_order_counterexample :
    (PromptPacker.formatContextItem {} c8Demo).content =
      "Lines 1-2\nFile: a\n\ncode" ∧
    "Lines 1-2\nFile: a\n\ncode" ≠ "File: a" ++ "\n" ++ "Lines 1-2" ++ "\n" ++
      "code" := by
  decide

/-- C8 (amended): with the default configuration the packed content is the
`Lines <start>-<end>` line FIRST (when a line range is present, followed by a
single newline), then `File: <file_path>` and a blank line, then the excerpt;
the `Lines` line is omitted when `line_range` is absent, and the separator
between items is `"\n\n---\n\n"`. -/
theorem C8_format_lines_first (c : RetrievalCandidate) :
    (PromptPacker.formatContextItem {} c).content =
      (match c.lineRange with
       | some lr =>
         "Lines " ++ toString lr.start ++ "-" ++ toString lr.end_ ++ "\n"
       | none => "") ++ ("File: " ++ c.filePath ++ "\n\n" ++ c.content) ∧
    ({} : PromptPackerConfig).itemSeparator = "\n\n---\n\n" := by
  refine ⟨?_, rfl⟩
  rcases hlr : c.lineRange with _ | lr <;>
    simp only [PromptPacker.formatContextItem, hlr] <;> rfl

/-! ## C2 -/

/-- C2 (counterexample): two candidates with equal final score from files
"b" and "a" (in that fusion order) come out of `Ranker.rank` still as
["b", "a"] — the sort is stable with NO `(file_path, line_range.start)`
tie-break, so the claimed ordering fails on this output. -/
theorem C2_no_path_tiebreak_counterexample :
    (Ranker.rank {} (fun _ => 0) 0 [c2FileB, c2FileA] IntentType.explain
        "q").map RetrievalCandidate.filePath = ["b", "a"] ∧
    (Ranker.rank {} (fun _ => 0) 0 [c2FileB, c2FileA] IntentType.explain
        "q").map RetrievalCandidate.score = [1 / 2, 1 / 2] ∧
    ¬ List.Pairwise
      (fun a b => b.score ≤ a.score ∧ (a.score = b.score → c2TieKeyLe a b = true))
      (Ranker.rank {} (fun _ => 0) 0 [c2FileB, c2FileA] IntentType.explain
        "q") := by
  decide

/-- C2 (amended): in the ranker's output (whose order the packer's stable
re-sort preserves), candidates are ordered by final score descending, the
output is a permutation of the penalty-adjusted list, and candidates of
EQUAL final score stay in their pre-sort (fusion) order — there is no
`(file_path, line_range.start)` tie-break. The third conjunct states the
stability: for EVERY score value `s`, the output restricted to the
candidates of final score `s` is, in order, exactly the penalty-adjusted
list restricted to score `s`; together with the descending order this
determines the output uniquely and excludes any reordering of equal-score
candidates (such as the refuted tie-break). -/
theorem C2_rank_sorted_desc (cfg : RankerConfig) (rexp : ℚ → ℚ) (now : ℚ)
    (candidates : List RetrievalCandidate) (intent : IntentType)
    (query : String) :
    List.Pairwise (fun a b => b.score ≤ a.score)
      (Ranker.rank cfg rexp now candidates intent query) ∧
    (Ranker.rank cfg rexp now candidates intent query).Perm
      (if cfg.applyDiversityPenalty then
        Ranker.applyDiversityPenalty
          (Ranker.scoreCandidates cfg rexp now candidates intent query)
       else Ranker.scoreCandidates cfg rexp now candidates intent query) ∧
    ∀ s : ℚ,
      (Ranker.rank cfg rexp now candidates intent query).filter
        (fun c => decide (c.score = s)) =
      (if cfg.applyDiversityPenalty then
        Ranker.applyDiversityPenalty
          (Ranker.scoreCandidates cfg rexp now candidates intent query)
       else Ranker.scoreCandidates cfg rexp now candidates intent
        query).filter (fun c => decide (c.score = s)) :=
  ⟨sortByScoreDesc_sorted _, sortByScoreDesc_perm _,
    fun s => sortByScoreDesc_filter_eq _ s⟩

/-! ## C7 -/

theorem divGo_length (cs : List RetrievalCandidate)
    (counts : List (String × ℕ)) : (Ranker.divGo cs counts).length = cs.length := by
  induction cs generalizing counts with
  | nil => rfl
  | cons c cs ih => simp [Ranker.divGo, ih]

theorem divGo_getD (cs : List RetrievalCandidate) (counts : List (String × ℕ))
    (i : ℕ) (h : i < cs.length) :
    ((Ranker.divGo cs counts).getD i emptyCandidate).score =
      ((cs.getD i emptyCandidate).score) *
        (1 / (1 + (((alookup counts
            (cs.getD i emptyCandidate).filePath).getD 0 +
          ((cs.take i).filter (fun d =>
            d.filePath = (cs.getD i emptyCandidate).filePath)).length : ℕ) : ℚ))) := by
  induction cs generalizing counts i with
  | nil => simp at h
  | cons c cs ih =>
    cases i with
    | zero =>
      simp [Ranker.divGo]
    | succ i =>
      have h' : i < cs.length := by simpa using h
      have hstep := ih (mapSet counts c.filePath
        ((alookup counts c.filePath).getD 0 + 1)) i h'
      rw [alookup_mapSet] at hstep
      simp only [Ranker.divGo, List.getD_cons_succ, List.take_succ_cons,
        List.filter_cons]
      rw [hstep]
      by_cases hk : c.filePath = (cs.getD i emptyCandidate).filePath
      · rw [if_pos hk]
        simp only [hk, Option.getD_some, decide_True, if_true, List.length_cons]
        have hx : (alookup counts (cs.getD i emptyCandidate).filePath).getD 0 +
            1 + ((cs.take i).filter (fun d =>
              d.filePath = (cs.getD i emptyCandidate).filePath)).length =
            (alookup counts (cs.getD i emptyCandidate).filePath).getD 0 +
            (((cs.take i).filter (fun d =>
              d.filePath = (cs.getD i emptyCandidate).filePath)).length + 1) := by
          omega
        rw [hx]
      · rw [if_neg hk]
        rw [if_neg (fun hcc => hk (of_decide_eq_true hcc))]

/-- C7 (counterexample): on two same-file candidates entering the ranker as
[low 0.2, high 0.8] with `explain` intent, the code applies the penalty in
INPUT order (low ×1 → 0.35, high ×1/2 → 0.325) and returns [low, high],
while the claim's procedure (visit in final-score order, then re-sort) gives
[high 0.65, low 0.175] — a different list, so the claim is false here. -/
theorem C7_visit_order_counterexample :
    (Ranker.rank {} (fun _ => 0) 0 [c7Low, c7High] IntentType.explain
        "q").map (fun c => (c.content, c.score)) =
      [("low", 7 / 20), ("high", 13 / 40)] ∧
    (Ranker.rankSpecOrder {} (fun _ => 0) 0 [c7Low, c7High] IntentType.explain
        "q").map (fun c => (c.content, c.score)) =
      [("high", 13 / 20), ("low", 7 / 40)] ∧
    Ranker.rank {} (fun _ => 0) 0 [c7Low, c7High] IntentType.explain "q" ≠
      Ranker.rankSpecOrder {} (fun _ => 0) 0 [c7Low, c7High]
        IntentType.explain "q" := by
  decide

/-- C7 (amended): the diversity penalty visits candidates in the order they
ENTER the ranker (the fusion order, before any sort): the `i`-th candidate is
multiplied by `1/(1+n)` where `n` is the number of earlier INPUT candidates
from the same file; the list is re-sorted by score (descending, stable) only
after the penalty. -/
theorem C7_divpenalty_input_order (cfg : RankerConfig) (rexp : ℚ → ℚ)
    (now : ℚ) (candidates : List RetrievalCandidate) (intent : IntentType)
    (query : String) (hdiv : cfg.applyDiversityPenalty = true) :
    (Ranker.rank cfg rexp now candidates intent query =
      sortByScoreDesc (Ranker.applyDiversityPenalty
        (Ranker.scoreCandidates cfg rexp now candidates intent query))) ∧
    ∀ i, i < candidates.length →
      ((Ranker.applyDiversityPenalty (Ranker.scoreCandidates cfg rexp now
          candidates intent query)).getD i emptyCandidate).score =
      (((Ranker.scoreCandidates cfg rexp now candidates intent query).getD i
        emptyCandidate).score) *
        (1 / (1 + ((((Ranker.scoreCandidates cfg rexp now candidates intent
              query).take i).filter (fun d =>
            d.filePath = ((Ranker.scoreCandidates cfg rexp now candidates
              intent query).getD i emptyCandidate).filePath)).length : ℚ))) := by
  constructor
  · show sortByScoreDesc (if cfg.applyDiversityPenalty then _ else _) = _
    rw [hdiv]
    simp
  · intro i hi
    have hlen : i <
        (Ranker.scoreCandidates cfg rexp now candidates intent query).length := by
      simpa [Ranker.scoreCandidates] using hi
    have := divGo_getD (Ranker.scoreCandidates cfg rexp now candidates intent
      query) [] i hlen
    simpa [Ranker.applyDiversityPenalty, alookup] using this

/-- C7 witness: the amended theorem applied to the concrete two-candidate
input. -/
theorem C7_divpenalty_input_order_witness :
    ({} : RankerConfig).applyDiversityPenalty = true ∧
    Ranker.rank {} (fun _ => 0) 0 [c7Low, c7High] IntentType.explain "q" =
      sortByScoreDesc (Ranker.applyDiversityPenalty
        (Ranker.scoreCandidates {} (fun _ => 0) 0 [c7Low, c7High]
          IntentType.explain "q")) :=
  ⟨rfl, (C7_divpenalty_input_order {} (fun _ => 0) 0 [c7Low, c7High]
    IntentType.explain "q" rfl).1⟩

/-! ## C5 -/

/-- C5 (counterexample): `c5OverheadCandidate` does not fit in budget 200 and
the remaining budget (200) exceeds 100, yet `pack` DISCARDS it (the
truncation helper returns `null` because `remaining − overhead = 37 ≤ 50`) —
the third outcome the claim rules out. -/
theorem C5_discard_above_100_counterexample :
    PromptPacker.pack {} [c5OverheadCandidate] 200 =
      { items := [], tokensUsed := 0, packedCount := 0, truncatedCount := 0,
        wasTruncated := true } ∧
    (100 : ℤ) < 200 - (0 : ℕ) ∧
    ¬(((0 + PromptPacker.countItemTokens {}
      (PromptPacker.formatContextItem {} c5OverheadCandidate) : ℕ) : ℤ) ≤ 200) := by
  decide

/-- C5 (amended): for a candidate whose formatted item does not fit in the
remaining budget, packing stops, and: if the remaining budget exceeds 100
tokens AND `remaining − overhead > 50`, a truncated item is accepted whose
content is the original cut by `truncateContent` to `(remaining − overhead)·4`
characters with the literal marker `"\n\n[... truncated ...]"` appended;
otherwise (including `remaining > 100` with `remaining − overhead ≤ 50`) the
candidate is discarded. -/
theorem C5_pack_nonfit_behavior (cfg : PromptPackerConfig) (tokenBudget : ℤ)
    (used : ℕ) (c : RetrievalCandidate) (cs : List RetrievalCandidate)
    (hnofit : ¬(((used + PromptPacker.countItemTokens cfg
      (PromptPacker.formatContextItem cfg c) : ℕ) : ℤ) ≤ tokenBudget)) :
    (100 < tokenBudget - (used : ℤ) ∧
        50 < tokenBudget - (used : ℤ) - (PromptPacker.itemOverhead cfg
          (PromptPacker.formatContextItem cfg c) : ℤ) →
      ∃ ti, PromptPacker.truncateItem cfg (PromptPacker.formatContextItem cfg c)
          (tokenBudget - (used : ℤ)) = some ti ∧
        ti.content = PromptPacker.truncateContent
          (PromptPacker.formatContextItem cfg c).content
          (tokenBudget - (used : ℤ) - (PromptPacker.itemOverhead cfg
            (PromptPacker.formatContextItem cfg c) : ℤ)) ++
          "\n\n[... truncated ...]" ∧
        PromptPacker.packGo cfg tokenBudget (c :: cs) used =
          ([ti], used + PromptPacker.countItemTokens cfg ti, 1, 1)) ∧
    (¬(100 < tokenBudget - (used : ℤ) ∧
        50 < tokenBudget - (used : ℤ) - (PromptPacker.itemOverhead cfg
          (PromptPacker.formatContextItem cfg c) : ℤ)) →
      PromptPacker.packGo cfg tokenBudget (c :: cs) used = ([], used, 0, 0)) := by
  constructor
  · rintro ⟨h100, h50⟩
    have heq : PromptPacker.truncateItem cfg
        (PromptPacker.formatContextItem cfg c) (tokenBudget - (used : ℤ)) =
        some { PromptPacker.formatContextItem cfg c with
          content := PromptPacker.truncateContent
            (PromptPacker.formatContextItem cfg c).content
            (tokenBudget - (used : ℤ) - (PromptPacker.itemOverhead cfg
              (PromptPacker.formatContextItem cfg c) : ℤ)) ++
            "\n\n[... truncated ...]" } := by
      show (if tokenBudget - (used : ℤ) - (PromptPacker.itemOverhead cfg
          (PromptPacker.formatContextItem cfg c) : ℤ) ≤ 50
        then none else _) = _
      rw [if_neg (not_le.mpr h50)]
    refine ⟨_, heq, rfl, ?_⟩
    show (if ((used + PromptPacker.countItemTokens cfg
        (PromptPacker.formatContextItem cfg c) : ℕ) : ℤ) ≤ tokenBudget
        then _ else _) = _
    rw [if_neg hnofit, if_pos h100]
    show (match PromptPacker.truncateItem cfg
        (PromptPacker.formatContextItem cfg c)
        (tokenBudget - (used : ℤ)) with
      | some truncatedItem =>
        ([truncatedItem],
          used + PromptPacker.countItemTokens cfg truncatedItem, 1, 1)
      | none => ([], used, 0, 0)) = _
    rw [heq]
  · intro hno
    show (if ((used + PromptPacker.countItemTokens cfg
        (PromptPacker.formatContextItem cfg c) : ℕ) : ℤ) ≤ tokenBudget
        then _ else _) = _
    rw [if_neg hnofit]
    by_cases h100 : 100 < tokenBudget - (used : ℤ)
    · rw [if_pos h100]
      have h50 : tokenBudget - (used : ℤ) - (PromptPacker.itemOverhead cfg
          (PromptPacker.formatContextItem cfg c) : ℤ) ≤ 50 := by
        by_contra hgt
        exact hno ⟨h100, lt_of_not_le hgt⟩
      show (match PromptPacker.truncateItem cfg
          (PromptPacker.formatContextItem cfg c)
          (tokenBudget - (used : ℤ)) with
        | some truncatedItem =>
          ([truncatedItem],
            used + PromptPacker.countItemTokens cfg truncatedItem, 1, 1)
        | none => ([], used, 0, 0)) = _
      rw [show PromptPacker.truncateItem cfg
          (PromptPacker.formatContextItem cfg c) (tokenBudget - (used : ℤ)) =
          none from by
        show (if tokenBudget - (used : ℤ) - (PromptPacker.itemOverhead cfg
            (PromptPacker.formatContextItem cfg c) : ℤ) ≤ 50
          then none else _) = _
        rw [if_pos h50]]
    · rw [if_neg h100]

/-- C5 witness: the amended theorem applied to the concrete discard case
(remaining = 200 > 100 but overhead leaves only 37 ≤ 50 content tokens). -/
theorem C5_pack_nonfit_behavior_witness :
    ¬(((0 + PromptPacker.countItemTokens {}
      (PromptPacker.formatContextItem {} c5OverheadCandidate) : ℕ) : ℤ) ≤ 200) ∧
    PromptPacker.packGo {} 200 [c5OverheadCandidate] 0 = ([], 0, 0, 0) :=
  ⟨by decide,
    (C5_pack_nonfit_behavior {} 200 0 c5OverheadCandidate [] (by decide)).2
      (by decide)⟩

/-! ## C6 -/

/-- C6 (counterexample): on a row with raw cosine 0.4 and the default
threshold 0.5, the claim's procedure (normalize to 0.7 first, then filter)
KEEPS the candidate, but the code filters the RAW score first and returns
nothing. -/
theorem C6_normalize_order_counterexample :
    SemanticRetriever.retrieve {} [c6RawLow] { text := "q" } = [] ∧
    SemanticRetriever.retrieveSpecOrder {} [c6RawLow] { text := "q" } =
      [SemanticRetriever.toCandidate c6RawLow] ∧
    (SemanticRetriever.toCandidate c6RawLow).score = 7 / 10 ∧
    (1 : ℚ) / 2 ≤ 7 / 10 := by
  decide

/-- C6 (amended): the semantic retriever drops vector rows whose RAW cosine
similarity is below `min_score` (default 0.5) and only then rescales by
`(s+1)/2`: every returned candidate comes from a row with raw score
`≥ min_score` and carries normalized score `(raw+1)/2`; consequently (for
`min_score ≤ 1`) its normalized score is also `≥ min_score`. -/
theorem C6_semantic_raw_threshold (cfg : SemanticRetrieverConfig)
    (vectorResults : List VectorSearchResult) (query : RetrievalQuery)
    (c : RetrievalCandidate)
    (hmem : c ∈ SemanticRetriever.retrieve cfg vectorResults query) :
    ∃ r ∈ vectorResults,
      query.minScore.getD cfg.minSimilarity ≤ r.score ∧
      c = SemanticRetriever.toCandidate r ∧
      c.score = (r.score + 1) / 2 ∧
      (query.minScore.getD cfg.minSimilarity ≤ 1 →
        query.minScore.getD cfg.minSimilarity ≤ c.score) := by
  have hbase : c ∈ (vectorResults.filter (fun r =>
      decide (query.minScore.getD cfg.minSimilarity ≤ r.score))).map
      SemanticRetriever.toCandidate := by
    unfold SemanticRetriever.retrieve at hmem
    repeat' split at hmem
    all_goals
      simp only [filterByLanguages, filterByFilePatterns] at hmem
    all_goals
      repeat' replace hmem := List.mem_of_mem_filter hmem
    all_goals exact hmem
  obtain ⟨r, hrf, hcr⟩ := List.mem_map.mp hbase
  obtain ⟨hrmem, hpred⟩ := List.mem_filter.mp hrf
  have hraw : query.minScore.getD cfg.minSimilarity ≤ r.score :=
    of_decide_eq_true hpred
  have hscore : c.score = (r.score + 1) / 2 := by
    rw [← hcr]
    rfl
  refine ⟨r, hrmem, hraw, hcr.symm, hscore, fun h1 => ?_⟩
  rw [hscore]
  linarith

/-- C6 witness: the amended theorem applied to a row of raw cosine 0.6. -/
theorem C6_semantic_raw_threshold_witness :
    SemanticRetriever.toCandidate c6RawHigh ∈
      SemanticRetriever.retrieve {} [c6RawHigh] { text := "q" } ∧
    ∃ r ∈ [c6RawHigh],
      ({ text := "q" } : RetrievalQuery).minScore.getD
        ({} : SemanticRetrieverConfig).minSimilarity ≤ r.score ∧
      SemanticRetriever.toCandidate c6RawHigh =
        SemanticRetriever.toCandidate r ∧
      (SemanticRetriever.toCandidate c6RawHigh).score = (r.score + 1) / 2 ∧
      (({ text := "q" } : RetrievalQuery).minScore.getD
          ({} : SemanticRetrieverConfig).minSimilarity ≤ 1 →
        ({ text := "q" } : RetrievalQuery).minScore.getD
          ({} : SemanticRetrieverConfig).minSimilarity ≤
          (SemanticRetriever.toCandidate c6RawHigh).score) :=
  ⟨by decide,
    C6_semantic_raw_threshold {} [c6RawHigh] { text := "q" } _ (by decide)⟩

/-! ## C10 -/

theorem keepGo_spec (tokenBudget : ℤ) (cs : List RetrievalCandidate)
    (total : ℕ) :
    (TruncationStrategy.keepGo tokenBudget cs total).2 =
      total + TruncationStrategy.sumContentTokens
        (TruncationStrategy.keepGo tokenBudget cs total).1 ∧
    ((total : ℤ) ≤ tokenBudget →
      (((TruncationStrategy.keepGo tokenBudget cs total).2 : ℕ) : ℤ) ≤
        tokenBudget) ∧
    List.IsPrefix (TruncationStrategy.keepGo tokenBudget cs total).1 cs := by
  induction cs generalizing total with
  | nil =>
    refine ⟨?_, fun h => h, List.nil_prefix⟩
    show total = total + TruncationStrategy.sumContentTokens []
    simp [TruncationStrategy.sumContentTokens]
  | cons c cs ih =>
    by_cases hfit : ((total + TokenCounter.countTokens c.content : ℕ) : ℤ) ≤
      tokenBudget
    · have heq : TruncationStrategy.keepGo tokenBudget (c :: cs) total =
          (c :: (TruncationStrategy.keepGo tokenBudget cs
            (total + TokenCounter.countTokens c.content)).1,
          (TruncationStrategy.keepGo tokenBudget cs
            (total + TokenCounter.countTokens c.content)).2) := by
        show (if ((total + TokenCounter.countTokens c.content : ℕ) : ℤ) ≤
          tokenBudget then _ else _) = _
        rw [if_pos hfit]
      obtain ⟨ih1, ih2, ih3⟩ := ih (total + TokenCounter.countTokens c.content)
      refine ⟨?_, fun _ => ?_, ?_⟩
      · rw [heq]
        simp only [TruncationStrategy.sumContentTokens, List.map_cons,
          List.sum_cons] at ih1 ⊢
        omega
      · rw [heq]
        exact ih2 hfit
      · rw [heq]
        obtain ⟨t, ht⟩ := ih3
        exact ⟨t, by rw [List.cons_append, ht]⟩
    · have heq : TruncationStrategy.keepGo tokenBudget (c :: cs) total =
          ([], total) := by
        show (if ((total + TokenCounter.countTokens c.content : ℕ) : ℤ) ≤
          tokenBudget then _ else _) = _
        rw [if_neg hfit]
      rw [heq]
      exact ⟨by simp [TruncationStrategy.sumContentTokens], fun h => h,
        List.nil_prefix⟩

/-- C10 (confirmed): with the default `DROP_LOWEST` mode and a non-negative
budget, `truncate` keeps a prefix of the score-descending sort of the input,
reports `totalTokens` equal to the sum of the kept candidates' content token
counts and never above the budget, drops the rest (`droppedCount`), and
truncates nothing (`truncatedCount = 0`, contents unaltered). -/
theorem C10_truncate_drop_lowest (candidates : List RetrievalCandidate)
    (tokenBudget : ℤ) (hb : 0 ≤ tokenBudget) :
    (TruncationStrategy.truncate candidates tokenBudget).totalTokens =
      TruncationStrategy.sumContentTokens
        (TruncationStrategy.truncate candidates tokenBudget).candidates ∧
    (((TruncationStrategy.truncate candidates tokenBudget).totalTokens : ℕ) :
      ℤ) ≤ tokenBudget ∧
    List.IsPrefix
      (TruncationStrategy.truncate candidates tokenBudget).candidates
      (sortByScoreDesc candidates) ∧
    (TruncationStrategy.truncate candidates tokenBudget).droppedCount =
      candidates.length -
        (TruncationStrategy.truncate candidates tokenBudget).candidates.length ∧
    (TruncationStrategy.truncate candidates tokenBudget).truncatedCount = 0 ∧
    (TruncationStrategy.truncate candidates tokenBudget).mode =
      TruncationMode.drop_lowest := by
  obtain ⟨h1, h2, h3⟩ := keepGo_spec tokenBudget (sortByScoreDesc candidates) 0
  exact ⟨by simpa using h1, by simpa using h2 (by simpa using hb), h3, rfl,
    rfl, rfl⟩

/-- C10 witness: the confirmed theorem applied to two one-token candidates
and budget 1 (the higher-scored prefix of length 1 is kept). -/
theorem C10_truncate_drop_lowest_witness :
    (0 : ℤ) ≤ 1 ∧
    (((TruncationStrategy.truncate [c7Low, c7High] 1).totalTokens : ℕ) : ℤ) ≤
      1 ∧
    List.IsPrefix (TruncationStrategy.truncate [c7Low, c7High] 1).candidates
      (sortByScoreDesc [c7Low, c7High]) ∧
    (TruncationStrategy.truncate [c7Low, c7High] 1).truncatedCount = 0 :=
  ⟨by decide, (C10_truncate_drop_lowest [c7Low, c7High] 1 (by decide)).2.1,
    (C10_truncate_drop_lowest [c7Low, c7High] 1 (by decide)).2.2.1,
    (C10_truncate_drop_lowest [c7Low, c7High] 1 (by decide)).2.2.2.2.1⟩


/-! ## C4 -/

/-- C4 (confirmed): for a positive total budget, `allocate` computes
`available = total − 50 − 10 − input`, fails with the insufficient-budget
error exactly when `available ≤ 0`, and otherwise allocates
`context = clamp(⌊available·context_pct⌋, 20, 8000)`,
`task = ⌊available·task_pct⌋`, `input = input_tokens` and
`output = max(0, total − system − input − context − task − reserved)`, with
the percentages from the claim's intent table. -/
theorem C4_allocate_formula (totalBudget inputTokens : ℤ)
    (intent : Option IntentType) (hpos : 0 < totalBudget) :
    BudgetAllocator.adjustPercentagesForIntent {} intent =
      c4IntentTable intent ∧
    (totalBudget - 50 - 10 - inputTokens ≤ 0 →
      BudgetAllocator.allocate {} totalBudget inputTokens intent =
        Except.error
          (AllocError.insufficientBudget (60 + inputTokens) totalBudget)) ∧
    (0 < totalBudget - 50 - 10 - inputTokens →
      ∃ a, BudgetAllocator.allocate {} totalBudget inputTokens intent =
          Except.ok a ∧
        a.totalBudget = totalBudget ∧ a.system = 50 ∧ a.input = inputTokens ∧
        a.reserved = 10 ∧
        a.context = max 20 (min 8000
          ⌊((totalBudget - 50 - 10 - inputTokens : ℤ) : ℚ) *
            (c4IntentTable intent).1⌋) ∧
        a.task = ⌊((totalBudget - 50 - 10 - inputTokens : ℤ) : ℚ) *
          (c4IntentTable intent).2⌋ ∧
        a.output =
          max 0 (totalBudget - 50 - inputTokens - a.context - a.task - 10)) := by
  have htable : BudgetAllocator.adjustPercentagesForIntent {} intent =
      c4IntentTable intent := by
    rcases intent with _ | i
    · norm_num [BudgetAllocator.adjustPercentagesForIntent, c4IntentTable]
    · cases i <;>
        norm_num [BudgetAllocator.adjustPercentagesForIntent, c4IntentTable]
  refine ⟨htable, fun hle => ?_, fun hgt => ?_⟩
  · unfold BudgetAllocator.allocate
    rw [if_neg (not_le.mpr hpos), if_pos (show totalBudget -
      (({} : BudgetAllocatorConfig).systemTokens +
        ({} : BudgetAllocatorConfig).reservedTokens) - inputTokens ≤ 0 by
      show totalBudget - (50 + 10) - inputTokens ≤ 0
      omega)]
    norm_num
  · have hok : BudgetAllocator.allocate {} totalBudget inputTokens intent =
        Except.ok
          { totalBudget := totalBudget
            system := 50
            input := inputTokens
            context := max 20 (min 8000
              ⌊((totalBudget - 50 - 10 - inputTokens : ℤ) : ℚ) *
                (c4IntentTable intent).1⌋)
            task := ⌊((totalBudget - 50 - 10 - inputTokens : ℤ) : ℚ) *
              (c4IntentTable intent).2⌋
            output := max 0 (totalBudget - 50 - inputTokens -
              max 20 (min 8000
                ⌊((totalBudget - 50 - 10 - inputTokens : ℤ) : ℚ) *
                  (c4IntentTable intent).1⌋) -
              ⌊((totalBudget - 50 - 10 - inputTokens : ℤ) : ℚ) *
                (c4IntentTable intent).2⌋ - 10)
            reserved := 10 } := by
      unfold BudgetAllocator.allocate
      rw [if_neg (not_le.mpr hpos), if_neg (show ¬(totalBudget -
        (({} : BudgetAllocatorConfig).systemTokens +
          ({} : BudgetAllocatorConfig).reservedTokens) - inputTokens ≤ 0) by
        show ¬(totalBudget - (50 + 10) - inputTokens ≤ 0)
        omega)]
      rw [htable]
      simp only [Except.ok.injEq, BudgetAllocation.mk.injEq]
      have hQ : ((totalBudget - (50 + 10) - inputTokens : ℤ) : ℚ) =
          ((totalBudget - 50 - 10 - inputTokens : ℤ) : ℚ) := by
        push_cast
        ring
      refine ⟨trivial, trivial, trivial, ?_, ?_, ?_, trivial⟩
      · push_cast
        ring_nf
      · push_cast
        ring_nf
      · push_cast
        ring_nf
    exact ⟨_, hok, rfl, rfl, rfl, rfl, rfl, rfl, rfl⟩

/-- C4 witness: the confirmed theorem applied to total budget 1000, input
100 and intent `explain` (available 840, context 504, task 42, output 294). -/
theorem C4_allocate_formula_witness :
    (0 : ℤ) < 1000 ∧ (0 : ℤ) < 1000 - 50 - 10 - 100 ∧
    ∃ a, BudgetAllocator.allocate {} 1000 100 (some IntentType.explain) =
        Except.ok a ∧
      a.totalBudget = 1000 ∧ a.system = 50 ∧ a.input = 100 ∧
      a.reserved = 10 ∧
      a.context = max 20 (min 8000 ⌊((1000 - 50 - 10 - 100 : ℤ) : ℚ) *
        (c4IntentTable (some IntentType.explain)).1⌋) ∧
      a.task = ⌊((1000 - 50 - 10 - 100 : ℤ) : ℚ) *
        (c4IntentTable (some IntentType.explain)).2⌋ ∧
      a.output = max 0 (1000 - 50 - 100 - a.context - a.task - 10) :=
  ⟨by decide, by decide,
    (C4_allocate_formula 1000 100 (some IntentType.explain) (by decide)).2.2
      (by decide)⟩


/-! ## C3 -/

theorem fuseStep_scores (cfg : FusionConfig) (w : ℚ)
    (st : List (String × ℚ) × List (String × RetrievalCandidate))
    (rc : ℕ × RetrievalCandidate) (k : String) :
    (alookup (CandidateFusion.fuseStep cfg w st rc).1 k).getD 0 =
      (alookup st.1 k).getD 0 +
        (if CandidateFusion.getCandidateKey rc.2 = k then
          w / (cfg.rrfK + (rc.1 : ℚ) + 1)
        else 0) := by
  show (alookup (mapSet st.1 (CandidateFusion.getCandidateKey rc.2)
    ((alookup st.1 (CandidateFusion.getCandidateKey rc.2)).getD 0 +
      w / (cfg.rrfK + (rc.1 : ℚ) + 1))) k).getD 0 = _
  rw [alookup_mapSet]
  by_cases hk : CandidateFusion.getCandidateKey rc.2 = k
  · simp [hk]
  · simp [hk]

theorem foldl_fuseStep_scores (cfg : FusionConfig) (w : ℚ)
    (ps : List (ℕ × RetrievalCandidate))
    (st : List (String × ℚ) × List (String × RetrievalCandidate))
    (k : String) :
    (alookup (ps.foldl (CandidateFusion.fuseStep cfg w) st).1 k).getD 0 =
      (alookup st.1 k).getD 0 + pairsRRF cfg w k ps := by
  induction ps generalizing st with
  | nil => simp [pairsRRF]
  | cons p ps ih =>
    rw [List.foldl_cons, ih, fuseStep_scores]
    simp only [pairsRRF, List.map_cons, List.sum_cons]
    ring

theorem fuseList_scores (cfg : FusionConfig)
    (st : List (String × ℚ) × List (String × RetrievalCandidate))
    (l : List RetrievalCandidate) (k : String) :
    (alookup (CandidateFusion.fuseList cfg st l).1 k).getD 0 =
      (alookup st.1 k).getD 0 + listRRF cfg k l := by
  cases l with
  | nil => simp [CandidateFusion.fuseList, listRRF]
  | cons c0 cs =>
    show (alookup ((c0 :: cs).enum.foldl (CandidateFusion.fuseStep cfg
      (CandidateFusion.weightOf cfg c0.method)) st).1 k).getD 0 = _
    rw [foldl_fuseStep_scores]
    rfl

theorem foldl_fuseList_scores (cfg : FusionConfig)
    (lists : List (List RetrievalCandidate))
    (st : List (String × ℚ) × List (String × RetrievalCandidate))
    (k : String) :
    (alookup (lists.foldl (CandidateFusion.fuseList cfg) st).1 k).getD 0 =
      (alookup st.1 k).getD 0 + rrfSum cfg k lists := by
  induction lists generalizing st with
  | nil => simp [rrfSum]
  | cons l lists ih =>
    rw [List.foldl_cons, ih, fuseList_scores]
    simp only [rrfSum, List.map_cons, List.sum_cons]
    ring

theorem mapSet_keyed (m : List (String × RetrievalCandidate)) (k : String)
    (v : RetrievalCandidate) (hm : cmapKeyed m)
    (hv : CandidateFusion.getCandidateKey v = k) :
    cmapKeyed (mapSet m k v) := by
  induction m with
  | nil =>
    intro p hp
    rcases List.mem_singleton.mp hp with h
    rw [h] at *
    exact hv
  | cons q m ih =>
    intro p hp
    by_cases hq : q.1 = k
    · have : mapSet (q :: m) k v = (q.1, v) :: m := by
        show (if q.1 = k then (q.1, v) :: m else _) = _
        rw [if_pos hq]
      rw [this] at hp
      rcases List.mem_cons.mp hp with h | h
      · rw [h]
        show CandidateFusion.getCandidateKey v = q.1
        rw [hv, hq]
      · exact hm p (List.mem_cons_of_mem q h)
    · have : mapSet (q :: m) k v = q :: mapSet m k v := by
        show (if q.1 = k then _ else q :: mapSet m k v) = _
        rw [if_neg hq]
      rw [this] at hp
      rcases List.mem_cons.mp hp with h | h
      · rw [h]
        exact hm q (List.mem_cons_self q m)
      · exact ih (fun r hr => hm r (List.mem_cons_of_mem q hr)) p h

theorem fuseStep_keyed (cfg : FusionConfig) (w : ℚ)
    (st : List (String × ℚ) × List (String × RetrievalCandidate))
    (rc : ℕ × RetrievalCandidate) (h : cmapKeyed st.2) :
    cmapKeyed (CandidateFusion.fuseStep cfg w st rc).2 := by
  show cmapKeyed (match alookup st.2 (CandidateFusion.getCandidateKey rc.2) with
    | none => mapSet st.2 (CandidateFusion.getCandidateKey rc.2) rc.2
    | some existing =>
      if existing.score < rc.2.score then
        mapSet st.2 (CandidateFusion.getCandidateKey rc.2) rc.2
      else st.2)
  rcases halo : alookup st.2 (CandidateFusion.getCandidateKey rc.2) with _ | ex
  · exact mapSet_keyed _ _ _ h rfl
  · by_cases hsc : ex.score < rc.2.score
    · simp only [hsc, if_true]
      exact mapSet_keyed _ _ _ h rfl
    · simp only [hsc, if_false]
      exact h

theorem foldl_fuseStep_keyed (cfg : FusionConfig) (w : ℚ)
    (ps : List (ℕ × RetrievalCandidate))
    (st : List (String × ℚ) × List (String × RetrievalCandidate))
    (h : cmapKeyed st.2) :
    cmapKeyed (ps.foldl (CandidateFusion.fuseStep cfg w) st).2 := by
  induction ps generalizing st with
  | nil => exact h
  | cons p ps ih =>
    rw [List.foldl_cons]
    exact ih _ (fuseStep_keyed cfg w st p h)

theorem fuseList_keyed (cfg : FusionConfig)
    (st : List (String × ℚ) × List (String × RetrievalCandidate))
    (l : List RetrievalCandidate) (h : cmapKeyed st.2) :
    cmapKeyed (CandidateFusion.fuseList cfg st l).2 := by
  cases l with
  | nil => exact h
  | cons c0 cs => exact foldl_fuseStep_keyed cfg _ _ st h

theorem foldl_fuseList_keyed (cfg : FusionConfig)
    (lists : List (List RetrievalCandidate))
    (st : List (String × ℚ) × List (String × RetrievalCandidate))
    (h : cmapKeyed st.2) :
    cmapKeyed (lists.foldl (CandidateFusion.fuseList cfg) st).2 := by
  induction lists generalizing st with
  | nil => exact h
  | cons l lists ih =>
    rw [List.foldl_cons]
    exact ih _ (fuseList_keyed cfg st l h)

theorem dedupGo_subset (cfg : FusionConfig) (cs acc : List RetrievalCandidate)
    (x : RetrievalCandidate) (h : x ∈ CandidateFusion.dedupGo cfg cs acc) :
    x ∈ acc ∨ x ∈ cs := by
  induction cs generalizing acc with
  | nil => exact Or.inl h
  | cons c cs ih =>
    have hd : CandidateFusion.dedupGo cfg (c :: cs) acc =
        (if acc.any (fun e => decide (cfg.deduplicationThreshold ≤
          CandidateFusion.calculateSimilarity c e)) then
          CandidateFusion.dedupGo cfg cs acc
        else CandidateFusion.dedupGo cfg cs (acc ++ [c])) := rfl
    rw [hd] at h
    by_cases hdup : acc.any (fun e => decide (cfg.deduplicationThreshold ≤
      CandidateFusion.calculateSimilarity c e))
    · rw [if_pos hdup] at h
      rcases ih acc h with h1 | h1
      · exact Or.inl h1
      · exact Or.inr (List.mem_cons_of_mem c h1)
    · rw [if_neg hdup] at h
      rcases ih (acc ++ [c]) h with h1 | h1
      · rcases List.mem_append.mp h1 with h2 | h2
        · exact Or.inl h2
        · exact Or.inr (List.mem_cons.mpr (Or.inl (List.mem_singleton.mp h2)))
      · exact Or.inr (List.mem_cons_of_mem c h1)

/-- C3 (amended): because `ContextEngine` constructs `new CandidateFusion()`
with NO `methodWeights`, every method's weight defaults to 1.0; every
candidate `fuse` returns is scored `normalizeRRFScore` of the accumulated sum
of `1 / (60 + rank + 1)` over the occurrences of its chunk key, and that raw
accumulated sum is recorded in `metadata.rrfScore`. -/
theorem C3_fuse_unit_weight_rrf
    (candidateLists : List (List RetrievalCandidate))
    (c : RetrievalCandidate)
    (hmem : c ∈ CandidateFusion.fuse {} candidateLists) :
    CandidateFusion.weightOf {} c.method = 1 ∧
    c.metadata.rrfScore =
      some (rrfSum {} (CandidateFusion.getCandidateKey c) candidateLists) ∧
    c.score = CandidateFusion.normalizeRRFScore
      (rrfSum {} (CandidateFusion.getCandidateKey c) candidateLists) := by
  have h1 : c ∈ CandidateFusion.deduplicateCandidates {}
      ((candidateLists.foldl (CandidateFusion.fuseList {}) ([], [])).2.map
        (fun kc =>
          { kc.2 with
            score := CandidateFusion.normalizeRRFScore
              ((alookup (candidateLists.foldl (CandidateFusion.fuseList {})
                ([], [])).1 kc.1).getD 0)
            metadata := { kc.2.metadata with
              originalScore := some kc.2.score
              rrfScore := some ((alookup (candidateLists.foldl
                (CandidateFusion.fuseList {}) ([], [])).1 kc.1).getD 0) } })) :=
    (sortByScoreDesc_perm _).mem_iff.mp hmem
  have h2 := dedupGo_subset {} _ [] c h1
  have hF : c ∈ (candidateLists.foldl (CandidateFusion.fuseList {})
      ([], [])).2.map (fun kc =>
        { kc.2 with
          score := CandidateFusion.normalizeRRFScore
            ((alookup (candidateLists.foldl (CandidateFusion.fuseList {})
              ([], [])).1 kc.1).getD 0)
          metadata := { kc.2.metadata with
            originalScore := some kc.2.score
            rrfScore := some ((alookup (candidateLists.foldl
              (CandidateFusion.fuseList {}) ([], [])).1 kc.1).getD 0) } }) := by
    rcases h2 with h2 | h2
    · exact absurd h2 (List.not_mem_nil c)
    · exact (sortByScoreDesc_perm _).mem_iff.mp h2
  obtain ⟨kc, hkcmem, hceq⟩ := List.mem_map.mp hF
  have hkeyed := foldl_fuseList_keyed {} candidateLists ([], [])
    (fun p hp => absurd hp (List.not_mem_nil p))
  have hk : CandidateFusion.getCandidateKey kc.2 = kc.1 := hkeyed kc hkcmem
  have hkc : CandidateFusion.getCandidateKey c = kc.1 := by
    rw [← hceq]
    exact hk
  have hsc : (alookup (candidateLists.foldl (CandidateFusion.fuseList {})
      ([], [])).1 kc.1).getD 0 = rrfSum {} kc.1 candidateLists := by
    have := foldl_fuseList_scores {} candidateLists ([], []) kc.1
    simpa [alookup] using this
  refine ⟨rfl, ?_, ?_⟩
  · rw [hkc, ← hceq]
    show some ((alookup (candidateLists.foldl (CandidateFusion.fuseList {})
      ([], [])).1 kc.1).getD 0) = _
    rw [hsc]
  · rw [hkc, ← hceq]
    show CandidateFusion.normalizeRRFScore ((alookup (candidateLists.foldl
      (CandidateFusion.fuseList {}) ([], [])).1 kc.1).getD 0) = _
    rw [hsc]

/-- C3 (counterexample): under the `explain` strategy the claim predicts the
chunk at ranks 0 (semantic, w1 = 0.6) and 2 (lexical, w2 = 0.3) scores
`normalize(0.6/61 + 0.3/63)`; the engine's fusion (constructed with no
method weights) returns it exactly once with score
`normalize(1/61 + 1/63) = 124/3967`, which differs. -/
theorem C3_strategy_weights_counterexample :
    (CandidateFusion.fuse {} c3Lists).map
      (fun c => (CandidateFusion.getCandidateKey c, c.score)) =
      [("pa:1-5", 124 / 3967), ("px:1-5", 1 / 62), ("py:1-5", 1 / 63)] ∧
    CandidateFusion.normalizeRRFScore (1 / 61 + 1 / 63) = 124 / 3967 ∧
    CandidateFusion.normalizeRRFScore (6 / 10 / 61 + 3 / 10 / 63) ≠
      124 / 3967 := by
  decide

/-- C3 witness: the amended theorem applied to the S4-style scenario. -/
theorem C3_fuse_unit_weight_rrf_witness :
    c3FusedA ∈ CandidateFusion.fuse {} c3Lists ∧
    (CandidateFusion.weightOf {} c3FusedA.method = 1 ∧
     c3FusedA.metadata.rrfScore =
       some (rrfSum {} (CandidateFusion.getCandidateKey c3FusedA) c3Lists) ∧
     c3FusedA.score = CandidateFusion.normalizeRRFScore
       (rrfSum {} (CandidateFusion.getCandidateKey c3FusedA) c3Lists)) :=
  ⟨by decide, C3_fuse_unit_weight_rrf c3Lists c3FusedA (by decide)⟩


/-! ## C9 -/

/-- C9 (counterexample): with NO retriever registered (none of the strategy's
methods can run, and none contributes a candidate), `query` still reports all
three `explain`-strategy methods in `retrievalMethods` while returning zero
items — contradicting the claim that non-contributing methods are not
reported. -/
theorem C9_nocontrib_counterexample :
    ContextEngine.query true (fun _ => IntentType.explain) [] (fun _ => 0) 0
        { input := "hi", tokenBudget := 1000 } = Except.ok c9Result ∧
    c9Result.retrievalMethods = ["semantic", "lexical", "dependency"] ∧
    c9Result.items = [] := by
  decide

/-- C9 (amended): `retrieval_methods` in a successful `ContextResult` is
exactly the method list of the strategy selected for the resolved intent,
regardless of which retrievers were registered, ran, or contributed
candidates. -/
theorem C9_methods_from_strategy (initialized : Bool)
    (classify : String → IntentType)
    (retrievers : List (String × (RetrievalQuery → List RetrievalCandidate)))
    (rexp : ℚ → ℚ) (now : ℚ) (q : ContextQuery) (res : ContextResult)
    (h : ContextEngine.query initialized classify retrievers rexp now q =
      Except.ok res) :
    res.retrievalMethods =
      (RetrievalStrategySelector.selectStrategy
        (q.intent.getD (classify q.input))).methods.map methodName := by
  unfold ContextEngine.query at h
  dsimp only at h
  repeat' split at h
  all_goals first
    | exact Except.noConfusion h
    | (injection h with h2; rw [← h2])

/-- C9 witness: the amended theorem applied to the no-retrievers query. -/
theorem C9_methods_from_strategy_witness :
    ContextEngine.query true (fun _ => IntentType.explain) [] (fun _ => 0) 0
        { input := "hi", tokenBudget := 1000 } = Except.ok c9Result ∧
    c9Result.retrievalMethods =
      (RetrievalStrategySelector.selectStrategy
        ((({ input := "hi", tokenBudget := 1000 } : ContextQuery)).intent.getD
          ((fun _ => IntentType.explain)
            (({ input := "hi", tokenBudget := 1000 } : ContextQuery)).input))).methods.map
        methodName :=
  ⟨by decide,
    C9_methods_from_strategy true (fun _ => IntentType.explain) []
      (fun _ => 0) 0 { input := "hi", tokenBudget := 1000 } c9Result
      (by decide)⟩

end CtxEngine
